import Mathlib

/-!
# Constraint-propagation network (`src/main.cpp`)

A shallow embedding of the connector / constraint / adder classes of `src/main.cpp`.

* `std::shared_ptr<Connector<T>>` and `std::shared_ptr<Constraint<T>>` become handles
  (indices) into an arena `Net`; the null pointer is `none`.
* Mutation is explicit state passing; every operation returns an `Outcome`.
* `assert` is taken to be enabled: a failing assertion stops the run (`Outcome.fault`),
  and the outcome keeps the state reached at that point.
* The mutual recursion `set_value → notify_value_change → on_connector_value_change →
  on_connector_set_value → set_value` is tied by a fuel argument on `set_value`; the other
  functions receive the recursive callee as the parameter `setv`.
* `Net.log` is a ghost trace of the reactions invoked; no operation reads it.
* The value type `T` is the template parameter; the theorems instantiate it at `Int`
  (`main` uses `int`; no overflow is modelled, signed overflow being undefined in C++).
* The field `_computed_value` (marked TODO in the source, never read or written) is left out.
-/

namespace ConstraintSystem

/-- Handle of a connector in the arena (stands for `std::shared_ptr<Connector<T>>`). -/
abbrev ConnRef := Nat

/-- Handle of a constraint in the arena (stands for `std::shared_ptr<Constraint<T>>`). -/
abbrev ConstraintRef := Nat

/-- Ghost events recorded while a cascade runs. -/
inductive Event where
  /-- The call `on_connector_value_change(connector, change_maker)` was entered on constraint `k`. -/
  | reaction (k : ConstraintRef) (connector : ConnRef) (change_maker : Option ConstraintRef)
  /-- The reaction passed the guard and dispatched to `on_connector_set_value`. -/
  | set_hook (k : ConstraintRef) (connector : ConnRef)
  /-- The reaction passed the guard and dispatched to `on_connector_drop_value`. -/
  | drop_hook (k : ConstraintRef) (connector : ConnRef)
  deriving DecidableEq, Repr

/-- Ways a run can stop early. -/
inductive Err where
  /-- The `assert` of line 98 failed. -/
  | assertion_failed
  /-- A call of `std::optional::value()` on an empty optional (`get_value` of an absent connector). -/
  | bad_optional_access
  /-- A null (or otherwise invalid) `shared_ptr` was dereferenced. -/
  | null_pointer
  deriving DecidableEq, Repr

/-- The class `Connector<T>`: lines 33-69. -/
structure Connector (T : Type) where
  /-- The field `std::optional<T> _value`. -/
  _value : Option T
  /-- The field `std::unordered_set<...> _constraints`, kept without duplicates. -/
  _constraints : List ConstraintRef
  deriving DecidableEq, Repr

/-- The class `Adder<T>`: its three private pointers, lines 103-105. -/
structure Adder where
  _lhs : Option ConnRef
  _rhs : Option ConnRef
  _sum : Option ConnRef
  deriving DecidableEq, Repr

/-- The heap: all connectors, all constraints (every concrete constraint is an `Adder`),
and the ghost trace (newest event first). -/
structure Net (T : Type) where
  connectors : List (Connector T)
  constraints : List Adder
  log : List Event
  deriving DecidableEq, Repr

/-- Result of running an operation. -/
inductive Outcome (T : Type) where
  /-- The call returned, leaving the heap `n`. -/
  | done (n : Net T)
  /-- The run stopped with `e`; `n` is the heap at that point. -/
  | fault (e : Err) (n : Net T)
  /-- The fuel of the model ran out (no counterpart in the source). -/
  | out_of_fuel
  deriving DecidableEq, Repr

variable {T : Type}

/-- Sequencing of calls: run `f` on the heap left by a call that returned. -/
def Outcome.andThen (o : Outcome T) (f : Net T → Outcome T) : Outcome T :=
  match o with
  | .done n => f n
  | .fault e n => .fault e n
  | .out_of_fuel => .out_of_fuel

/-- `Connector::has_value`, line 37. -/
def Connector.has_value (c : Connector T) : Bool :=
  c._value.isSome

/-- `Connector::get_value`, line 41: `_value.value()` throws on an empty optional. -/
def Connector.get_value (c : Connector T) : Except Err T :=
  match c._value with
  | some v => .ok v
  | none => .error .bad_optional_access

/-- `Connector::connect`, line 55: insertion into the unordered set. -/
def Connector.connect (c : Connector T) (constraint : ConstraintRef) : Connector T :=
  { c with _constraints := if constraint ∈ c._constraints then c._constraints
                           else c._constraints ++ [constraint] }

/-- Dereference of a connector pointer. -/
def Net.deref (n : Net T) (p : Option ConnRef) : Except Err (Connector T) :=
  match p with
  | none => .error .null_pointer
  | some c =>
    match n.connectors[c]? with
    | none => .error .null_pointer
    | some x => .ok x

/-- The expression `p->has_value()`. -/
def Net.has_value (n : Net T) (p : Option ConnRef) : Except Err Bool :=
  match n.deref p with
  | .error e => .error e
  | .ok x => .ok x.has_value

/-- The expression `p->get_value()`. -/
def Net.get_value (n : Net T) (p : Option ConnRef) : Except Err T :=
  match n.deref p with
  | .error e => .error e
  | .ok x => x.get_value

/-- Write a connector back to its slot. -/
def Net.store (n : Net T) (c : ConnRef) (x : Connector T) : Net T :=
  { n with connectors := n.connectors.set c x }

/-- Append a ghost event. -/
def Net.record (n : Net T) (e : Event) : Net T :=
  { n with log := e :: n.log }

/-- Short-circuit `&&` of two conditions that may fault. -/
def andAlso (a b : Except Err Bool) : Except Err Bool :=
  match a with
  | .error e => .error e
  | .ok false => .ok false
  | .ok true => b

/-- The operator `!` on a condition that may fault. -/
def notB (a : Except Err Bool) : Except Err Bool :=
  match a with
  | .error e => .error e
  | .ok b => .ok (!b)

/-- A binary operator applied to two reads that may fault (left operand first). -/
def binop (f : T → T → T) (a b : Except Err T) : Except Err T :=
  match a with
  | .error e => .error e
  | .ok x =>
    match b with
    | .error e => .error e
    | .ok y => .ok (f x y)

/-- The call `p->set_value(v, change_maker)` through a pointer `p` and a computed `v`. -/
def call_set_value (setv : ConnRef → T → Option ConstraintRef → Net T → Outcome T)
    (p : Option ConnRef) (v : Except Err T) (change_maker : Option ConstraintRef)
    (n : Net T) : Outcome T :=
  match v with
  | .error e => .fault e n
  | .ok value =>
    match p with
    | none => .fault .null_pointer n
    | some c => setv c value change_maker n

/-- `Constraint::on_connector_set_value`, line 28: the default hook does nothing. -/
def Constraint.on_connector_set_value (_connector : ConnRef) (_value : T) (n : Net T) :
    Outcome T :=
  .done n

/-- `Constraint::on_connector_drop_value`, line 29: the default hook does nothing.
`Adder` does not override it. -/
def Constraint.on_connector_drop_value (_connector : ConnRef) (n : Net T) : Outcome T :=
  .done n

/-- `Adder::on_connector_set_value`, lines 90-100. `this` is the adder `a` with handle `self`. -/
def Adder.on_connector_set_value [Add T] [Sub T] [DecidableEq T]
    (setv : ConnRef → T → Option ConstraintRef → Net T → Outcome T)
    (self : ConstraintRef) (a : Adder) (_connector : ConnRef) (_value : T) (n : Net T) :
    Outcome T :=
  match andAlso (n.has_value a._lhs) (andAlso (n.has_value a._rhs) (notB (n.has_value a._sum))) with
  | .error e => .fault e n
  | .ok true =>
    call_set_value setv a._sum
      (binop (fun x y => x + y) (n.get_value a._lhs) (n.get_value a._rhs)) (some self) n
  | .ok false =>
  match andAlso (n.has_value a._lhs) (andAlso (notB (n.has_value a._rhs)) (n.has_value a._sum)) with
  | .error e => .fault e n
  | .ok true =>
    call_set_value setv a._rhs
      (binop (fun x y => x - y) (n.get_value a._sum) (n.get_value a._lhs)) (some self) n
  | .ok false =>
  match andAlso (notB (n.has_value a._lhs)) (andAlso (n.has_value a._rhs) (n.has_value a._sum)) with
  | .error e => .fault e n
  | .ok true =>
    call_set_value setv a._lhs
      (binop (fun x y => x - y) (n.get_value a._sum) (n.get_value a._rhs)) (some self) n
  | .ok false =>
  match andAlso (n.has_value a._lhs) (andAlso (n.has_value a._rhs) (n.has_value a._sum)) with
  | .error e => .fault e n
  | .ok true =>
    match binop (fun x y => x + y) (n.get_value a._lhs) (n.get_value a._rhs), n.get_value a._sum with
    | .error e, _ => .fault e n
    | .ok _, .error e => .fault e n
    | .ok x, .ok s => if x = s then .done n else .fault .assertion_failed n
  | .ok false => .done n

/-- `Constraint::on_connector_value_change`, lines 15-25, invoked on the constraint with
handle `self`; the hooks are dispatched to `Adder`. -/
def on_connector_value_change [Add T] [Sub T] [DecidableEq T]
    (setv : ConnRef → T → Option ConstraintRef → Net T → Outcome T)
    (self : ConstraintRef) (connector : ConnRef) (change_maker : Option ConstraintRef)
    (n : Net T) : Outcome T :=
  match n.constraints[self]? with
  | none => .fault .null_pointer n
  | some a =>
    let n := n.record (.reaction self connector change_maker)
    if change_maker = some self then .done n
    else
      match n.has_value (some connector) with
      | .error e => .fault e n
      | .ok true =>
        match n.get_value (some connector) with
        | .error e => .fault e n
        | .ok value =>
          Adder.on_connector_set_value setv self a connector value
            (n.record (.set_hook self connector))
      | .ok false =>
        Constraint.on_connector_drop_value connector (n.record (.drop_hook self connector))

/-- The loop of `Connector::notify_value_change`, lines 65-67, over the subscribers left. -/
def notify_loop [Add T] [Sub T] [DecidableEq T]
    (setv : ConnRef → T → Option ConstraintRef → Net T → Outcome T)
    (connector : ConnRef) (change_maker : Option ConstraintRef) :
    List ConstraintRef → Net T → Outcome T
  | [], n => .done n
  | constraint :: rest, n =>
    (on_connector_value_change setv constraint connector change_maker n).andThen
      (notify_loop setv connector change_maker rest)

/-- `Connector::notify_value_change`, lines 64-68, on the connector with handle `self`. -/
def notify_value_change [Add T] [Sub T] [DecidableEq T]
    (setv : ConnRef → T → Option ConstraintRef → Net T → Outcome T)
    (self : ConnRef) (change_maker : Option ConstraintRef) (n : Net T) : Outcome T :=
  match n.deref (some self) with
  | .error e => .fault e n
  | .ok x => notify_loop setv self change_maker x._constraints n

/-- `Connector::set_value`, lines 45-48, on the connector with handle `self`. -/
def set_value [Add T] [Sub T] [DecidableEq T] :
    Nat → ConnRef → T → Option ConstraintRef → Net T → Outcome T
  | 0, _, _, _, _ => .out_of_fuel
  | fuel + 1, self, value, change_maker, n =>
    match n.deref (some self) with
    | .error e => .fault e n
    | .ok x =>
      notify_value_change (set_value fuel) self change_maker
        (n.store self { x with _value := some value })

/-- `Connector::drop_value`, lines 50-53, on the connector with handle `self`. -/
def drop_value [Add T] [Sub T] [DecidableEq T]
    (fuel : Nat) (self : ConnRef) (change_maker : Option ConstraintRef) (n : Net T) :
    Outcome T :=
  match n.deref (some self) with
  | .error e => .fault e n
  | .ok x =>
    notify_value_change (set_value fuel) self change_maker
      (n.store self { x with _value := none })

/-- The call `std::make_shared<Connector<T>>()`: a new connector, absent and unsubscribed. -/
def make_connector (n : Net T) : Net T × ConnRef :=
  ({ n with connectors := n.connectors ++ [⟨none, []⟩] }, n.connectors.length)

/-- The call `std::make_shared<Adder<T>>()`: a new adder with three null pointers. -/
def make_adder (n : Net T) : Net T × ConstraintRef :=
  ({ n with constraints := n.constraints ++ [⟨none, none, none⟩] }, n.constraints.length)

/-- The call `p->connect(constraint)` on the heap. -/
def Net.connect (n : Net T) (p : ConnRef) (constraint : ConstraintRef) : Net T :=
  match n.connectors[p]? with
  | none => n
  | some x => n.store p (x.connect constraint)

/-- Update of the adder with handle `self`. -/
def Net.modify_adder (n : Net T) (self : ConstraintRef) (f : Adder → Adder) : Net T :=
  { n with constraints := n.constraints.modify f self }

/-- `Adder::set_lhs`, lines 74-77. -/
def Adder.set_lhs (n : Net T) (self : ConstraintRef) (lhs : ConnRef) : Net T :=
  (n.modify_adder self (fun a => { a with _lhs := some lhs })).connect lhs self

/-- `Adder::set_rhs`, lines 79-82. -/
def Adder.set_rhs (n : Net T) (self : ConstraintRef) (rhs : ConnRef) : Net T :=
  (n.modify_adder self (fun a => { a with _rhs := some rhs })).connect rhs self

/-- `Adder::set_sum`, lines 84-87. -/
def Adder.set_sum (n : Net T) (self : ConstraintRef) (sum : ConnRef) : Net T :=
  (n.modify_adder self (fun a => { a with _sum := some sum })).connect sum self

/-- The empty heap. -/
def Net.empty : Net T :=
  { connectors := [], constraints := [], log := [] }

/-- Lines 109-116 of `main`: three connectors and one adder wired to them. -/
def fresh_network : Net T :=
  let (n, a) := make_connector (Net.empty : Net T)
  let (n, b) := make_connector n
  let (n, c) := make_connector n
  let (n, adder) := make_adder n
  let n := Adder.set_lhs n adder a
  let n := Adder.set_rhs n adder b
  Adder.set_sum n adder c

/-- Handle of the connector bound as `_lhs` (`a` in `main`). -/
def lhsConn : ConnRef := 0

/-- Handle of the connector bound as `_rhs` (`b` in `main`). -/
def rhsConn : ConnRef := 1

/-- Handle of the connector bound as `_sum` (`c` in `main`). -/
def sumConn : ConnRef := 2

/-- Handle of the adder of `main`. -/
def theAdder : ConstraintRef := 0

/-- A fully wired single-adder network whose three connectors hold `vl`, `vr`, `vs`
(each present or absent), with ghost trace `log`. -/
def network (vl vr vs : Option T) (log : List Event) : Net T :=
  { connectors := [⟨vl, [theAdder]⟩, ⟨vr, [theAdder]⟩, ⟨vs, [theAdder]⟩]
    constraints := [⟨some lhsConn, some rhsConn, some sumConn⟩]
    log := log }

/-- The three roles of an adder's connectors. -/
inductive Role where
  | lhs
  | rhs
  | sum
  deriving DecidableEq, Repr

/-- Handle of the connector playing a role in `network`. -/
def Role.conn : Role → ConnRef
  | .lhs => lhsConn
  | .rhs => rhsConn
  | .sum => sumConn

/-- The value held by connector `c`, if `c` exists and holds one. -/
def Net.value? (n : Net T) (c : ConnRef) : Option T :=
  match n.connectors[c]? with
  | none => none
  | some x => x._value

/-- Number of the three connectors of `network` that hold a value. -/
def Net.present_count (n : Net T) : Nat :=
  ([lhsConn, rhsConn, sumConn].filter (fun c => (n.value? c).isSome)).length

/-- Number of invocations of `on_connector_value_change` in a trace. -/
def reactions (log : List Event) : Nat :=
  log.countP (fun e => match e with | .reaction _ _ _ => true | _ => false)

/-- Number of reactions in a trace that passed the guard and dispatched to a hook. -/
def dispatches (log : List Event) : Nat :=
  log.countP (fun e => match e with | .reaction _ _ _ => false | _ => true)

/-- The statements of `main`, lines 118-125, returning the two numbers printed. -/
def main (fuel : Nat) : Option (List Int) :=
  match (set_value fuel lhsConn (1 : Int) none fresh_network).andThen
        (set_value fuel rhsConn 2 none) with
  | .done n1 =>
    match n1.get_value (some sumConn) with
    | .ok c =>
      match ((drop_value fuel sumConn none n1).andThen (drop_value fuel lhsConn none)).andThen
            (set_value fuel sumConn 10 none) with
      | .done n2 =>
        match n2.get_value (some lhsConn) with
        | .ok a => some [c, a]
        | .error _ => none
      | _ => none
    | .error _ => none
  | _ => none

/-- The values given to the three connectors when lhs, rhs and sum are set to `a`, `b`, `s`. -/
def assign (a b s : T) : Role → T
  | .lhs => a
  | .rhs => b
  | .sum => s

/-- Closed form of the adder's set-hook on `network vl vr vs log`, used in proofs only
(`hook_network` shows that the hook computes it). -/
def settle (vl vr vs : Option Int) (log : List Event) : Outcome Int :=
  match vl, vr, vs with
  | some l, some r, none =>
    .done (network (some l) (some r) (some (l + r))
      (.reaction theAdder sumConn (some theAdder) :: log))
  | some l, none, some s =>
    .done (network (some l) (some (s - l)) (some s)
      (.reaction theAdder rhsConn (some theAdder) :: log))
  | none, some r, some s =>
    .done (network (some (s - r)) (some r) (some s)
      (.reaction theAdder lhsConn (some theAdder) :: log))
  | some l, some r, some s =>
    if l + r = s then .done (network (some l) (some r) (some s) log)
    else .fault .assertion_failed (network (some l) (some r) (some s) log)
  | _, _, _ => .done (network vl vr vs log)

/-- The values of the three connectors after `v` is stored at role `r`. -/
def put (r : Role) (v : Option Int) (vl vr vs : Option Int) :
    Option Int × Option Int × Option Int :=
  match r with
  | .lhs => (v, vr, vs)
  | .rhs => (vl, v, vs)
  | .sum => (vl, vr, v)

/-- A single-adder network in which only some of `set_lhs`, `set_rhs`, `set_sum` have been
called (`bl`, `br`, `bs` tell which): a bound connector has the adder as its subscriber, an
unbound one has no subscriber and the adder's pointer to it is null. -/
def partial_network (bl br bs : Bool) (vl vr vs : Option T) (log : List Event) : Net T :=
  { connectors := [⟨vl, if bl then [theAdder] else []⟩, ⟨vr, if br then [theAdder] else []⟩,
      ⟨vs, if bs then [theAdder] else []⟩]
    constraints := [⟨if bl then some lhsConn else none, if br then some rhsConn else none,
      if bs then some sumConn else none⟩]
    log := log }

/-- Lines 109-113 of `main` followed by only some of the wiring calls of lines 114-116. -/
def wire_some (bl br bs : Bool) : Net T :=
  let (n, a) := make_connector (Net.empty : Net T)
  let (n, b) := make_connector n
  let (n, c) := make_connector n
  let (n, adder) := make_adder n
  let n := if bl then Adder.set_lhs n adder a else n
  let n := if br then Adder.set_rhs n adder b else n
  if bs then Adder.set_sum n adder c else n

/-- Number of invocations of the reaction of constraint `k` for connector `c` in a trace. -/
def reactions_for (k : ConstraintRef) (c : ConnRef) (log : List Event) : Nat :=
  log.countP (fun e => match e with
    | .reaction k2 c2 _ => decide (k2 = k ∧ c2 = c)
    | _ => false)

/-- Number of the three connectors of `network` whose value differs between two heaps. -/
def Net.changed (n n2 : Net Int) : Nat :=
  ([lhsConn, rhsConn, sumConn].filter (fun c => decide (n.value? c ≠ n2.value? c))).length

/-- The wiring of `main` produces the network with three absent connectors. -/
theorem fresh_network_eq : (fresh_network : Net Int) = network none none none [] := by
  decide

/-- The harness prints `c = 3` and `a = 8`. -/
theorem main_output (fuel : Nat) : main (fuel + 2) = some [3, 8] := by
  simp [main, fresh_network_eq, set_value, drop_value, notify_value_change, notify_loop,
    on_connector_value_change, Adder.on_connector_set_value,
    Constraint.on_connector_drop_value, call_set_value, binop, andAlso, notB,
    Net.deref, Net.has_value, Net.get_value, Net.store, Net.record, Connector.has_value,
    Connector.get_value, Outcome.andThen, network, lhsConn, rhsConn, sumConn, theAdder]

/-- The set-hook of the adder, run on `network vl vr vs log`, computes `settle`. -/
theorem hook_network (fuel : Nat) (vl vr vs : Option Int) (log : List Event) (c : ConnRef)
    (v : Int) :
    Adder.on_connector_set_value (set_value (fuel + 1)) theAdder
      ⟨some lhsConn, some rhsConn, some sumConn⟩ c v (network vl vr vs log) =
      settle vl vr vs log := by
  cases vl <;> cases vr <;> cases vs <;>
  simp [settle, set_value, notify_value_change, notify_loop,
    on_connector_value_change, Adder.on_connector_set_value,
    call_set_value, binop, andAlso, notB,
    Net.deref, Net.has_value, Net.get_value, Net.store, Net.record, Connector.has_value,
    Connector.get_value, Outcome.andThen, network, lhsConn, rhsConn, sumConn, theAdder]

/-- An external `set_value` whose origin is not the adder stores the value and then runs
the set-hook once. -/
theorem set_value_network (fuel : Nat) (vl vr vs : Option Int) (log : List Event) (r : Role)
    (v : Int) (origin : Option ConstraintRef) (ho : origin ≠ some theAdder) :
    set_value (fuel + 2) r.conn v origin (network vl vr vs log) =
      settle (put r (some v) vl vr vs).1 (put r (some v) vl vr vs).2.1
        (put r (some v) vl vr vs).2.2
        (.set_hook theAdder r.conn :: .reaction theAdder r.conn origin :: log) := by
  rw [← hook_network fuel _ _ _ _ r.conn v]
  have ho2 : ¬ origin = some 0 := ho
  cases r <;>
  simp [put, set_value, notify_value_change, notify_loop,
    on_connector_value_change, 
    Net.deref, Net.has_value, Net.get_value, Net.store, Net.record, Connector.has_value,
    Connector.get_value, Outcome.andThen, network, lhsConn, rhsConn, sumConn, theAdder, Role.conn, ho2] <;>
  split <;> rename_i heq <;> exact heq.symm

/-- A `set_value` whose origin is the adder only stores the value. -/
theorem set_value_network_guarded (fuel : Nat) (vl vr vs : Option Int) (log : List Event)
    (r : Role) (v : Int) :
    set_value (fuel + 1) r.conn v (some theAdder) (network vl vr vs log) =
      .done (network (put r (some v) vl vr vs).1 (put r (some v) vl vr vs).2.1
        (put r (some v) vl vr vs).2.2
        (.reaction theAdder r.conn (some theAdder) :: log)) := by
  cases r <;>
  simp [put, set_value, notify_value_change, notify_loop, on_connector_value_change,
    Net.deref, Net.store, Net.record, Outcome.andThen, network, lhsConn, rhsConn, sumConn,
    theAdder, Role.conn]

/-- A `drop_value` only clears its target; the adder has no drop reaction. -/
theorem drop_value_network (fuel : Nat) (vl vr vs : Option Int) (log : List Event)
    (r : Role) (origin : Option ConstraintRef) :
    drop_value fuel r.conn origin (network vl vr vs log) =
      .done (network (put r none vl vr vs).1 (put r none vl vr vs).2.1
        (put r none vl vr vs).2.2
        (if origin = some theAdder then .reaction theAdder r.conn origin :: log
         else .drop_hook theAdder r.conn :: .reaction theAdder r.conn origin :: log)) := by
  by_cases ho : origin = some 0 <;> cases r <;>
  simp [put, drop_value, notify_value_change, notify_loop, on_connector_value_change,
    Constraint.on_connector_drop_value, Net.has_value, Connector.has_value,
    Net.deref, Net.store, Net.record, Outcome.andThen, network, lhsConn, rhsConn, sumConn,
    theAdder, Role.conn, ho]

/-- One reaction of the adder on `network vl vr vs log`, the origin not being the adder. -/
theorem reaction_network (fuel : Nat) (vl vr vs : Option Int) (log : List Event)
    (r : Role) (origin : Option ConstraintRef) (ho : origin ≠ some theAdder) :
    on_connector_value_change (set_value (fuel + 1)) theAdder r.conn origin
        (network vl vr vs log) =
      if ((network vl vr vs log).value? r.conn).isSome then
        settle vl vr vs (.set_hook theAdder r.conn :: .reaction theAdder r.conn origin :: log)
      else
        .done (network vl vr vs
          (.drop_hook theAdder r.conn :: .reaction theAdder r.conn origin :: log)) := by
  have ho2 : ¬ origin = some 0 := ho
  have hk := fun lg c v => hook_network fuel vl vr vs lg c v
  simp only [network, lhsConn, rhsConn, sumConn, theAdder] at hk
  cases r <;> cases vl <;> cases vr <;> cases vs <;>
  simp [on_connector_value_change, hk,
    Constraint.on_connector_drop_value, Net.has_value, Net.get_value, Connector.has_value,
    Connector.get_value, Net.value?,
    Net.deref, Net.store, Net.record, Outcome.andThen, network, lhsConn, rhsConn, sumConn,
    theAdder, Role.conn, ho2]

/-- C6. Consistent values never fail: setting lhs = a, rhs = b, sum = a + b in any order,
all three calls return and the connectors end up holding a, b and a + b. -/
theorem consistent_values_never_fail (fuel : Nat) (a b : Int)
    (r1 r2 r3 : Role) (h12 : r1 ≠ r2) (h13 : r1 ≠ r3) (h23 : r2 ≠ r3) :
    ∃ n : Net Int,
      ((set_value (fuel + 2) r1.conn (assign a b (a + b) r1) none fresh_network).andThen
        (set_value (fuel + 2) r2.conn (assign a b (a + b) r2) none)).andThen
        (set_value (fuel + 2) r3.conn (assign a b (a + b) r3) none) = .done n ∧
      n.connectors = (network (some a) (some b) (some (a + b)) []).connectors := by
  cases r1 <;> cases r2 <;> cases r3 <;>
  first
  | contradiction
  | simp [fresh_network_eq, set_value, drop_value, notify_value_change, notify_loop,
      on_connector_value_change, Adder.on_connector_set_value,
      Constraint.on_connector_drop_value, call_set_value, binop, andAlso, notB,
      Net.deref, Net.has_value, Net.get_value, Net.store, Net.record, Connector.has_value,
      Connector.get_value, Outcome.andThen, network, lhsConn, rhsConn, sumConn, theAdder,
      Role.conn, assign]

/-- Instance of C6 at a = 1, b = 2 in the order sum, lhs, rhs. -/
theorem consistent_values_never_fail_witness :
    ∃ n : Net Int,
      ((set_value (0 + 2) Role.sum.conn (assign 1 2 (1 + 2) .sum) none fresh_network).andThen
        (set_value (0 + 2) Role.lhs.conn (assign 1 2 (1 + 2) .lhs) none)).andThen
        (set_value (0 + 2) Role.rhs.conn (assign 1 2 (1 + 2) .rhs) none) = .done n ∧
      n.connectors = (network (some 1) (some 2) (some (1 + 2)) []).connectors :=
  consistent_values_never_fail 0 1 2 .sum .lhs .rhs (by decide) (by decide) (by decide)


/-- C7. Setting a value reaches a fixpoint: if `set_value(c, v)` with no origin returns,
then not exactly two of the three connectors hold a value; either only `c` does, or all
three do. -/
theorem set_value_reaches_fixpoint (fuel : Nat) (vl vr vs : Option Int) (log : List Event)
    (r : Role) (v : Int) (n : Net Int)
    (h : set_value (fuel + 2) r.conn v none (network vl vr vs log) = .done n) :
    n.present_count ≠ 2 ∧
    ((n.present_count = 1 ∧ n.value? r.conn = some v) ∨ n.present_count = 3) := by
  rw [set_value_network fuel vl vr vs log r v none (by decide)] at h
  cases r <;> cases vl <;> cases vr <;> cases vs <;>
  simp only [put, settle] at h <;>
  (try split_ifs at h) <;>
  simp at h <;> subst h <;>
  simp [Net.present_count, Net.value?, network, lhsConn, rhsConn, sumConn, Role.conn]

/-- Instance of C7 at the network holding lhs = 1, on which rhs is set to 2. -/
theorem set_value_reaches_fixpoint_witness :
    set_value (0 + 2) Role.rhs.conn (2 : Int) none (network (some 1) none none []) =
      .done (network (some 1) (some 2) (some 3)
        [.reaction theAdder sumConn (some theAdder), .set_hook theAdder rhsConn,
          .reaction theAdder rhsConn none]) ∧
    (network (some (1 : Int)) (some 2) (some 3)
        [.reaction theAdder sumConn (some theAdder), .set_hook theAdder rhsConn,
          .reaction theAdder rhsConn none]).present_count ≠ 2 :=
  ⟨by decide,
    (set_value_reaches_fixpoint 0 (some 1) none none [] .rhs 2 _ (by decide)).1⟩

/-- C8. No infinite propagation: an external `set_value` or `drop_value` on one of the three
connectors, whatever the state and the origin, ends (by returning, or for `set_value` at the
assertion), having invoked `on_connector_value_change` at most twice, of which at most one
invocation passed the guard and dispatched to a hook. -/
theorem no_infinite_propagation (fuel : Nat) (vl vr vs : Option Int) (log : List Event)
    (r : Role) (v : Int) (origin : Option ConstraintRef) :
    (∃ n : Net Int,
      (set_value (fuel + 2) r.conn v origin (network vl vr vs log) = .done n ∨
        set_value (fuel + 2) r.conn v origin (network vl vr vs log) =
          .fault .assertion_failed n) ∧
      reactions n.log ≤ reactions log + 2 ∧ dispatches n.log ≤ dispatches log + 1) ∧
    (∃ n : Net Int,
      drop_value fuel r.conn origin (network vl vr vs log) = .done n ∧
      reactions n.log ≤ reactions log + 2 ∧ dispatches n.log ≤ dispatches log + 1) := by
  constructor
  · by_cases ho : origin = some theAdder
    · subst ho
      rw [set_value_network_guarded (fuel + 1)]
      simp [network, reactions, dispatches]
    · rw [set_value_network fuel vl vr vs log r v origin ho]
      cases r <;> cases vl <;> cases vr <;> cases vs <;>
      simp only [put, settle] <;>
      (try split_ifs) <;>
      simp [network, reactions, dispatches]
  · rw [drop_value_network]
    by_cases ho : origin = some theAdder <;>
    simp [network, reactions, dispatches, ho]

/-- C9. Idempotent reaction: if one invocation of `on_connector_value_change(c, no origin)`
returns, a second invocation right after it returns too and leaves every connector as the
first left it. -/
theorem idempotent_reaction (fuel : Nat) (vl vr vs : Option Int) (log : List Event)
    (r : Role) (n1 : Net Int)
    (h : on_connector_value_change (set_value (fuel + 1)) theAdder r.conn none
      (network vl vr vs log) = .done n1) :
    ∃ n2 : Net Int,
      on_connector_value_change (set_value (fuel + 1)) theAdder r.conn none n1 = .done n2 ∧
      n2.connectors = n1.connectors := by
  rw [reaction_network fuel vl vr vs log r none (by decide)] at h
  cases r <;> cases vl <;> cases vr <;> cases vs <;>
  simp [settle, Net.value?, network, Role.conn, lhsConn, rhsConn, sumConn, theAdder] at h <;>
  (try split_ifs at h with hc) <;> (try simp at h) <;> (try subst h) <;>
  simp [set_value, notify_value_change, notify_loop,
    on_connector_value_change, Adder.on_connector_set_value,
    Constraint.on_connector_drop_value, call_set_value, binop, andAlso, notB,
    Net.deref, Net.has_value, Net.get_value, Net.store, Net.record, Connector.has_value,
    Connector.get_value, Outcome.andThen, network, lhsConn, rhsConn, sumConn, theAdder,
    Role.conn, *]

/-- Instance of C9 at the network holding lhs = 1 and rhs = 2, with the reaction invoked
for lhs: the first invocation derives sum = 3, the second changes nothing. -/
theorem idempotent_reaction_witness :
    on_connector_value_change (set_value (0 + 1)) theAdder Role.lhs.conn none
      (network (some (1 : Int)) (some 2) none []) =
      .done (network (some 1) (some 2) (some 3)
        [.reaction theAdder sumConn (some theAdder), .set_hook theAdder lhsConn,
          .reaction theAdder lhsConn none]) ∧
    ∃ n2 : Net Int,
      on_connector_value_change (set_value (0 + 1)) theAdder Role.lhs.conn none
        (network (some 1) (some 2) (some 3)
          [.reaction theAdder sumConn (some theAdder), .set_hook theAdder lhsConn,
            .reaction theAdder lhsConn none]) = .done n2 ∧
      n2.connectors = (network (some (1 : Int)) (some 2) (some 3)
          [.reaction theAdder sumConn (some theAdder), .set_hook theAdder lhsConn,
            .reaction theAdder lhsConn none]).connectors :=
  ⟨by decide, idempotent_reaction 0 (some 1) (some 2) none [] .lhs _ (by decide)⟩

/-- C10. Self-origin guard: a reaction invoked on constraint `k` with origin `k` returns at
once, recording only its own invocation (no hook, no connector changed); so
`set_value(c, v, origin = the adder)` on the single-adder network changes only `c`. -/
theorem self_origin_guard :
    (∀ (setv : ConnRef → Int → Option ConstraintRef → Net Int → Outcome Int) (n : Net Int)
        (k : ConstraintRef) (c : ConnRef) (a : Adder), n.constraints[k]? = some a →
        on_connector_value_change setv k c (some k) n =
          .done (n.record (.reaction k c (some k)))) ∧
    (∀ (fuel : Nat) (vl vr vs : Option Int) (log : List Event) (r : Role) (v : Int),
        set_value (fuel + 1) r.conn v (some theAdder) (network vl vr vs log) =
          .done (((network vl vr vs log).store r.conn ⟨some v, [theAdder]⟩).record
            (.reaction theAdder r.conn (some theAdder)))) := by
  constructor
  · intro setv n k c a hk
    simp [on_connector_value_change, hk]
  · intro fuel vl vr vs log r v
    rw [set_value_network_guarded]
    cases r <;> simp [put, network, Net.store, Net.record, Role.conn, lhsConn, rhsConn, sumConn]

/-- Instance of C10 on the network holding lhs = 1 and rhs = 2: the guarded reaction for
lhs derives nothing. -/
theorem self_origin_guard_witness :
    (network (some (1 : Int)) (some 2) none []).constraints[theAdder]? =
      some ⟨some lhsConn, some rhsConn, some sumConn⟩ ∧
    on_connector_value_change (set_value 1) theAdder lhsConn (some theAdder)
      (network (some (1 : Int)) (some 2) none []) =
      .done ((network (some 1) (some 2) none []).record
        (.reaction theAdder lhsConn (some theAdder))) :=
  ⟨by decide, self_origin_guard.1 (set_value 1) _ theAdder lhsConn
    ⟨some lhsConn, some rhsConn, some sumConn⟩ (by decide)⟩

/-- The partly wired network with no value set is what the wiring calls build. -/
theorem wire_some_eq (bl br bs : Bool) :
    (wire_some bl br bs : Net Int) = partial_network bl br bs none none none [] := by
  cases bl <;> cases br <;> cases bs <;> decide

/-- C11, as stated, fails: with only `set_lhs` called, `set_value(lhs, 1)` makes the adder
read `_rhs`, a null pointer. -/
theorem unbound_constraint_dereferences_null :
    set_value 2 lhsConn (1 : Int) none (wire_some true false false) =
      .fault .null_pointer
        { connectors := [⟨some 1, [theAdder]⟩, ⟨none, []⟩, ⟨none, []⟩]
          constraints := [⟨some lhsConn, none, none⟩]
          log := [.set_hook theAdder lhsConn, .reaction theAdder lhsConn none] } := by
  decide

/-- C11, amended. The adder has no check for missing bindings: on a single-adder network
with at least one of the three bindings missing, `set_value` on a bound connector with an
origin other than the adder makes the reaction dereference a null binding: the run stops
there, after the store and with nothing derived. -/
theorem unbound_constraint_amended (fuel : Nat) (bl br bs : Bool) (vl vr vs : Option Int)
    (log : List Event) (r : Role) (v : Int) (origin : Option ConstraintRef)
    (hmiss : (bl && br && bs) = false) (hbound : assign bl br bs r = true)
    (ho : origin ≠ some theAdder) :
    ∃ n : Net Int,
      set_value (fuel + 1) r.conn v origin (partial_network bl br bs vl vr vs log) =
        .fault .null_pointer n ∧
      n.connectors =
        ((partial_network bl br bs vl vr vs log).store r.conn ⟨some v, [theAdder]⟩).connectors := by
  have ho2 : ¬ origin = some 0 := ho
  cases r <;> cases bl <;> cases br <;> cases bs <;>
  simp [assign] at hmiss hbound <;>
  cases vl <;> cases vr <;> cases vs <;>
  simp [partial_network, set_value, notify_value_change, notify_loop,
    on_connector_value_change, Adder.on_connector_set_value,
    call_set_value, binop, andAlso, notB,
    Net.deref, Net.has_value, Net.get_value, Net.store, Net.record, Connector.has_value,
    Connector.get_value, Outcome.andThen, lhsConn, rhsConn, sumConn, theAdder,
    Role.conn, ho2]

/-- Instance of the amended C11 with only lhs bound and lhs set to 1. -/
theorem unbound_constraint_amended_witness :
    (true && false && false) = false ∧ assign true false false Role.lhs = true ∧
    (none : Option ConstraintRef) ≠ some theAdder ∧
    ∃ n : Net Int,
      set_value (0 + 1) Role.lhs.conn 1 none (partial_network true false false none none none []) =
        .fault .null_pointer n ∧
      n.connectors =
        ((partial_network true false false none none none []).store Role.lhs.conn
          ⟨some 1, [theAdder]⟩).connectors :=
  ⟨by decide, by decide, by decide,
    unbound_constraint_amended 0 true false false none none none [] .lhs 1 none
      (by decide) (by decide) (by decide)⟩

/-- C12. `get_value` fails, with the empty-optional error, exactly when `has_value` is
false; on a present connector it returns the held value, which is the one `set_value`
stored last; an absent connector never yields a value. -/
theorem get_value_fails_iff_absent (c : Connector Int) :
    (c.get_value = .error .bad_optional_access ↔ c.has_value = false) ∧
    (∀ v : Int, c._value = some v ↔ c.get_value = .ok v) ∧
    (∀ v : Int, ({ c with _value := some v } : Connector Int).get_value = .ok v) ∧
    (∀ (fuel : Nat) (vl vr vs : Option Int) (log : List Event) (r : Role) (v : Int)
        (origin : Option ConstraintRef) (n : Net Int),
        set_value (fuel + 2) r.conn v origin (network vl vr vs log) = .done n →
        n.get_value (some r.conn) = .ok v) := by
  refine ⟨?_, ?_, ?_, ?_⟩
  · rcases c with ⟨_ | x, ks⟩ <;> simp [Connector.get_value, Connector.has_value]
  · intro v
    rcases c with ⟨_ | x, ks⟩ <;> simp [Connector.get_value]
  · intro v
    simp [Connector.get_value]
  · intro fuel vl vr vs log r v origin n h
    by_cases ho : origin = some theAdder
    · subst ho
      rw [set_value_network_guarded (fuel + 1)] at h
      cases r <;> simp [put] at h <;> subst h <;>
      simp [Net.get_value, Net.deref, network, Role.conn, lhsConn, rhsConn, sumConn,
        Connector.get_value]
    · rw [set_value_network fuel vl vr vs log r v origin ho] at h
      cases r <;> cases vl <;> cases vr <;> cases vs <;>
      simp only [put, settle] at h <;>
      (try split_ifs at h) <;>
      simp at h <;> subst h <;>
      simp [Net.get_value, Net.deref, network, Role.conn, lhsConn, rhsConn, sumConn,
        Connector.get_value]

/-- Instance of C12: after `set_value(rhs, 2)` on the network holding lhs = 1, `get_value`
of rhs returns 2. -/
theorem get_value_fails_iff_absent_witness :
    set_value (0 + 2) Role.rhs.conn (2 : Int) none (network (some 1) none none []) =
      .done (network (some 1) (some 2) (some 3)
        [.reaction theAdder sumConn (some theAdder), .set_hook theAdder rhsConn,
          .reaction theAdder rhsConn none]) ∧
    (network (some (1 : Int)) (some 2) (some 3)
        [.reaction theAdder sumConn (some theAdder), .set_hook theAdder rhsConn,
          .reaction theAdder rhsConn none]).get_value (some Role.rhs.conn) = .ok 2 :=
  ⟨by decide,
    (get_value_fails_iff_absent ⟨none, []⟩).2.2.2 0 (some 1) none none [] .rhs 2 none _
      (by decide)⟩

/-- Connecting the adder again to one of its connectors leaves the network as it is. -/
theorem connect_network (vl vr vs : Option Int) (log : List Event) (r : Role) :
    (network vl vr vs log).connect r.conn theAdder = network vl vr vs log := by
  cases r <;>
  simp [Net.connect, Connector.connect, Net.store, network, Role.conn, lhsConn, rhsConn,
    sumConn, theAdder]

/-- C14. `connect` is idempotent: a second `connect(k)` changes nothing, `k` occurs once in
the subscriber set, and on the network where the adder is connected twice to a connector,
each value change of that connector invokes the adder's reaction for it exactly once. -/
theorem connect_idempotent :
    (∀ (c : Connector Int) (k : ConstraintRef), (c.connect k).connect k = c.connect k) ∧
    (∀ (c : Connector Int) (k : ConstraintRef), c._constraints.Nodup →
      ((c.connect k).connect k)._constraints.count k = 1) ∧
    (∀ (fuel : Nat) (vl vr vs : Option Int) (log : List Event) (r : Role) (v : Int)
        (origin : Option ConstraintRef),
      (∃ n : Net Int,
        (set_value (fuel + 2) r.conn v origin
            (((network vl vr vs log).connect r.conn theAdder).connect r.conn theAdder) =
            .done n ∨
          set_value (fuel + 2) r.conn v origin
            (((network vl vr vs log).connect r.conn theAdder).connect r.conn theAdder) =
            .fault .assertion_failed n) ∧
        reactions_for theAdder r.conn n.log = reactions_for theAdder r.conn log + 1) ∧
      (∃ n : Net Int,
        drop_value fuel r.conn origin
            (((network vl vr vs log).connect r.conn theAdder).connect r.conn theAdder) =
            .done n ∧
        reactions_for theAdder r.conn n.log = reactions_for theAdder r.conn log + 1)) := by
  refine ⟨?_, ?_, ?_⟩
  · intro c k
    by_cases hk : k ∈ c._constraints <;> simp [Connector.connect, hk]
  · intro c k hnd
    by_cases hk : k ∈ c._constraints
    · simp [Connector.connect, hk]
      exact List.count_eq_one_of_mem hnd hk
    · simp [Connector.connect, hk, List.count_eq_zero_of_not_mem hk]
  · intro fuel vl vr vs log r v origin
    rw [connect_network, connect_network]
    constructor
    · by_cases ho : origin = some theAdder
      · subst ho
        rw [set_value_network_guarded (fuel + 1)]
        cases r <;>
        simp [network, reactions_for, Role.conn, lhsConn, rhsConn, sumConn, theAdder]
      · rw [set_value_network fuel vl vr vs log r v origin ho]
        cases r <;> cases vl <;> cases vr <;> cases vs <;>
        simp only [put, settle] <;>
        (try split_ifs) <;>
        simp [network, reactions_for, Role.conn, lhsConn, rhsConn, sumConn, theAdder]
    · rw [drop_value_network]
      by_cases ho : origin = some theAdder <;>
      simp [network, reactions_for, ho]

/-- Instance of C14 on a new connector: after two `connect(0)` the constraint is subscribed
once. -/
theorem connect_idempotent_witness :
    (⟨none, []⟩ : Connector Int)._constraints.Nodup ∧
    (((⟨none, []⟩ : Connector Int).connect 0).connect 0)._constraints.count 0 = 1 :=
  ⟨by decide, connect_idempotent.2.1 ⟨none, []⟩ 0 (by decide)⟩

/-- C15. One run of the adder's set-hook only fills an absent connector: it ends (returning,
or at the assertion), keeps every value that was present, changes at most one connector,
does not lower the number of present connectors, and writes nothing when all three are
present. -/
theorem reactions_only_fill_absent (fuel : Nat) (vl vr vs : Option Int) (log : List Event)
    (c : ConnRef) (v : Int) :
    ∃ n2 : Net Int,
      (Adder.on_connector_set_value (set_value (fuel + 1)) theAdder
          ⟨some lhsConn, some rhsConn, some sumConn⟩ c v (network vl vr vs log) = .done n2 ∨
        Adder.on_connector_set_value (set_value (fuel + 1)) theAdder
          ⟨some lhsConn, some rhsConn, some sumConn⟩ c v (network vl vr vs log) =
          .fault .assertion_failed n2) ∧
      (∀ (r : Role) (u : Int), (network vl vr vs log).value? r.conn = some u →
        n2.value? r.conn = some u) ∧
      (network vl vr vs log).changed n2 ≤ 1 ∧
      (network vl vr vs log).present_count ≤ n2.present_count ∧
      ((network vl vr vs log).present_count = 3 →
        n2.connectors = (network vl vr vs log).connectors) := by
  rw [hook_network]
  cases vl <;> cases vr <;> cases vs <;>
  simp only [settle] <;>
  (try split_ifs) <;>
  simp [network, Net.changed, Net.present_count, Net.value?, lhsConn, rhsConn, sumConn] <;>
  intro r u <;> cases r <;> simp [Role.conn, lhsConn, rhsConn, sumConn]

/-- Instance of C15 at lhs = 1, rhs = 2, sum absent: the hook keeps lhs. -/
theorem reactions_only_fill_absent_witness :
    (network (some (1 : Int)) (some 2) none []).value? Role.lhs.conn = some 1 ∧
    Adder.on_connector_set_value (set_value (0 + 1)) theAdder
      ⟨some lhsConn, some rhsConn, some sumConn⟩ lhsConn 1
      (network (some (1 : Int)) (some 2) none []) =
      .done (network (some 1) (some 2) (some 3)
        [.reaction theAdder sumConn (some theAdder)]) ∧
    ∃ n2 : Net Int,
      (Adder.on_connector_set_value (set_value (0 + 1)) theAdder
          ⟨some lhsConn, some rhsConn, some sumConn⟩ lhsConn 1
          (network (some 1) (some 2) none []) = .done n2 ∨
        Adder.on_connector_set_value (set_value (0 + 1)) theAdder
          ⟨some lhsConn, some rhsConn, some sumConn⟩ lhsConn 1
          (network (some 1) (some 2) none []) = .fault .assertion_failed n2) ∧
      (∀ (r : Role) (u : Int), (network (some 1) (some 2) none []).value? r.conn = some u →
        n2.value? r.conn = some u) ∧
      (network (some 1) (some 2) none []).changed n2 ≤ 1 ∧
      (network (some (1 : Int)) (some 2) none []).present_count ≤ n2.present_count ∧
      ((network (some (1 : Int)) (some 2) none []).present_count = 3 →
        n2.connectors = (network (some 1) (some 2) none []).connectors) :=
  ⟨by decide, by decide, reactions_only_fill_absent 0 (some 1) (some 2) none [] lhsConn 1⟩

/-- C16. `set_value` overwrites unconditionally: whenever `set_value(c, v, origin)` ends,
by returning or at the assertion, `c` holds `v`, whatever it held before. -/
theorem set_value_overwrites (fuel : Nat) (vl vr vs : Option Int) (log : List Event)
    (r : Role) (v : Int) (origin : Option ConstraintRef) (e : Err) (n : Net Int)
    (h : set_value (fuel + 2) r.conn v origin (network vl vr vs log) = .done n ∨
      set_value (fuel + 2) r.conn v origin (network vl vr vs log) = .fault e n) :
    n.value? r.conn = some v := by
  by_cases ho : origin = some theAdder
  · subst ho
    rw [set_value_network_guarded (fuel + 1)] at h
    cases r <;> simp [put] at h <;> subst h <;>
    simp [Net.value?, network, Role.conn, lhsConn, rhsConn, sumConn]
  · rw [set_value_network fuel vl vr vs log r v origin ho] at h
    cases r <;> cases vl <;> cases vr <;> cases vs <;>
    simp only [put, settle] at h <;>
    (try split_ifs at h) <;>
    simp at h <;>
    first
    | (subst h
       simp [Net.value?, network, Role.conn, lhsConn, rhsConn, sumConn])
    | (have h2 := h.2
       subst h2
       simp [Net.value?, network, Role.conn, lhsConn, rhsConn, sumConn])

/-- Instance of C16: lhs = 1 is overwritten with 2. -/
theorem set_value_overwrites_witness :
    (network (some (1 : Int)) none none []).value? Role.lhs.conn = some 1 ∧
    (network (some (2 : Int)) none none
      [.set_hook theAdder lhsConn, .reaction theAdder lhsConn none]).value? Role.lhs.conn =
      some 2 :=
  ⟨by decide,
    set_value_overwrites 0 (some 1) none none [] .lhs 2 none .assertion_failed _
      (Or.inl (by decide))⟩

/-- C17. `drop_value` affects only its target: it always returns, leaves the target absent
and the values of the other two connectors as they were. -/
theorem drop_value_only_target (fuel : Nat) (vl vr vs : Option Int) (log : List Event)
    (r : Role) (origin : Option ConstraintRef) :
    ∃ n : Net Int,
      drop_value fuel r.conn origin (network vl vr vs log) = .done n ∧
      n.value? r.conn = none ∧
      ∀ r2 : Role, r2 ≠ r → n.value? r2.conn = (network vl vr vs log).value? r2.conn := by
  rw [drop_value_network]
  refine ⟨_, rfl, ?_, ?_⟩
  · cases r <;> simp [put, Net.value?, network, Role.conn, lhsConn, rhsConn, sumConn]
  · intro r2 h2
    cases r <;> cases r2 <;>
    first
    | contradiction
    | simp [put, Net.value?, network, Role.conn, lhsConn, rhsConn, sumConn]

/-- Instance of C17: dropping lhs of the resolved network 1 + 2 = 3 keeps sum = 3. -/
theorem drop_value_only_target_witness :
    Role.sum ≠ Role.lhs ∧
    ∃ n : Net Int,
      drop_value 0 Role.lhs.conn none (network (some 1) (some 2) (some 3) []) = .done n ∧
      n.value? Role.lhs.conn = none ∧
      ∀ r2 : Role, r2 ≠ Role.lhs →
        n.value? r2.conn = (network (some 1) (some 2) (some 3) []).value? r2.conn :=
  ⟨by decide, drop_value_only_target 0 (some 1) (some 2) (some 3) [] .lhs none⟩

/-- C18. With at most one of the three connectors present, the adder's set-hook returns
and changes nothing; so the first `set_value` on the fresh network changes only its
target. -/
theorem fewer_than_two_derive_nothing (fuel : Nat) (vl vr vs : Option Int) (log : List Event)
    (c : ConnRef) (v : Int) (h : (network vl vr vs log).present_count ≤ 1) :
    Adder.on_connector_set_value (set_value (fuel + 1)) theAdder
        ⟨some lhsConn, some rhsConn, some sumConn⟩ c v (network vl vr vs log) =
      .done (network vl vr vs log) ∧
    ∀ (r : Role) (x : Int), ∃ n : Net Int,
      set_value (fuel + 2) r.conn x none fresh_network = .done n ∧
      n.connectors =
        ((network (none : Option Int) none none []).store r.conn ⟨some x, [theAdder]⟩).connectors := by
  constructor
  · rw [hook_network]
    cases vl <;> cases vr <;> cases vs <;>
    simp [Net.present_count, Net.value?, network, lhsConn, rhsConn, sumConn] at h <;>
    simp [settle]
  · intro r x
    rw [fresh_network_eq, set_value_network fuel none none none [] r x none (by decide)]
    cases r <;> simp [put, settle, network, Net.store, Role.conn, lhsConn, rhsConn, sumConn]

/-- Instance of C18 at the network holding only lhs = 1. -/
theorem fewer_than_two_derive_nothing_witness :
    (network (some (1 : Int)) none none []).present_count ≤ 1 ∧
    Adder.on_connector_set_value (set_value (0 + 1)) theAdder
        ⟨some lhsConn, some rhsConn, some sumConn⟩ lhsConn 1
        (network (some (1 : Int)) none none []) =
      .done (network (some 1) none none []) :=
  ⟨by decide, (fewer_than_two_derive_nothing 0 (some 1) none none [] lhsConn 1 (by decide)).1⟩

end ConstraintSystem
